import Mathlib

/-!
Verification of the libriscv fork core against its specification.

The embedding below follows the sources:
  * `lib/libriscv/decoder_cache.hpp` (DecoderData, DecoderCache),
  * `lib/libriscv/decoder_cache_serialize.hpp` (raw serialization and
    deserialization of the decoder cache),
  * the syscall layer (`syscall_sigaction`, `syscall_brk`,
    `syscall_getrandom`, `syscall_readv`, `syscall_write`),
  * the paging layer (`Memory::allocate_page`, `Memory::default_page_fault`).

The build is modelled with `RISCV_EXT_COMPRESSED` enabled: the manual
serializer in `decoder_cache_serialize.hpp` reads the `icount` bit-field,
which only exists in the compressed layout, and the spec describes byte 3
of a descriptor as `icount`.  Hence `DIVISOR = 2` and a `DecoderCache`
holds `PageSize / 2 = 2048` descriptors.

Machine integers are modelled as `Nat` (with explicit `% 2^w` where the
C++ performs modular arithmetic) and `Int` where the C++ computes in a
signed type.  Fallible operations return `Except` or `Option`.
-/

namespace LibRiscv

/-! Section: decoder data model (`decoder_cache.hpp`) -/

/-- PageSize from `common.hpp`: 4096-byte pages. -/
def PageSize : Nat := 4096

/-- The constant `DecoderCache::DIVISOR` with compressed instructions enabled. -/
def DIVISOR : Nat := 2

/-- The constant `DecoderCache::SIZE = PageSize / DIVISOR`: descriptors per page. -/
def SIZE : Nat := PageSize / DIVISOR

/-- The 8-byte per-instruction descriptor of `decoder_cache.hpp`
(compressed layout): `m_bytecode`, `m_handler`, 8-bit `idxend`,
8-bit `icount` and the 32-bit raw encoding `instr`. -/
structure DecoderData where
  m_bytecode : Nat
  m_handler : Nat
  idxend : Nat
  icount : Nat
  instr : Nat
deriving DecidableEq, Repr

/-- Field bounds guaranteed by the C++ types (`uint8_t` bytes, 8-bit
bit-fields, `uint32_t` encoding). -/
def DecoderData.WF (d : DecoderData) : Prop :=
  d.m_bytecode < 256 ∧ d.m_handler < 256 ∧ d.idxend < 256 ∧
    d.icount < 256 ∧ d.instr < 2 ^ 32

instance (d : DecoderData) : Decidable d.WF := by
  unfold DecoderData.WF; infer_instance

/-- The query `DecoderData::block_bytes()`: `idxend * 2` with compressed enabled. -/
def DecoderData.block_bytes (d : DecoderData) : Nat :=
  d.idxend * 2

/-- The query `DecoderData::instruction_count()`: `idxend + 1 - icount`, computed in
C++ `int` arithmetic (bit-fields promote to `int`), hence `Int` here. -/
def DecoderData.instruction_count (d : DecoderData) : Int :=
  (d.idxend : Int) + 1 - (d.icount : Int)

/-- The packed in-memory image of a descriptor on a little-endian host:
byte 0 `m_bytecode`, byte 1 `m_handler`, byte 2 `idxend`, byte 3 `icount`,
bytes 4..7 the little-endian `instr`.  This is what the raw `memcpy`-based
serializer copies. -/
def DecoderData.toBytes (d : DecoderData) : List Nat :=
  [d.m_bytecode % 256, d.m_handler % 256, d.idxend % 256, d.icount % 256,
   d.instr % 256, d.instr / 2 ^ 8 % 256, d.instr / 2 ^ 16 % 256,
   d.instr / 2 ^ 24 % 256]

/-- Reinterpreting 8 bytes as a `DecoderData` (the overlay performed by
`deserialize_decoder_cache` via `reinterpret_cast`). -/
def DecoderData.ofBytes (bs : List Nat) : DecoderData :=
  { m_bytecode := bs.getD 0 0
    m_handler := bs.getD 1 0
    idxend := bs.getD 2 0
    icount := bs.getD 3 0
    instr := bs.getD 4 0 + 2 ^ 8 * bs.getD 5 0 + 2 ^ 16 * bs.getD 6 0 +
      2 ^ 24 * bs.getD 7 0 }

/-! Section: process-wide handler tables.

`instr_handlers`, the allocation counter, the deduplication map
`handler_cache` and the representative-encoding map `inst_handler_mapping`
are static members of `DecoderData`.  Handlers themselves are opaque host
function pointers; they are modelled by natural numbers (`0` plays the
role of the null pointer stored in a fresh `std::array`), and functional
equivalence of two handlers is equality of these numbers.  The two
`unordered_map`s are modelled as association lists in iteration order. -/

structure HandlerState where
  /-- Field `instr_handlers`: handler-pointer table indexed by handler index. -/
  table : Nat → Nat
  /-- Field `handler_count`: allocation counter. -/
  count : Nat
  /-- Field `handler_cache`: handler pointer → index, in iteration order. -/
  hcache : List (Nat × Nat)
  /-- Field `inst_handler_mapping`: handler index → representative encoding,
  in iteration order. -/
  mapping : List (Nat × Nat)

/-- The initial static state: a zero-filled handler table, counter 0 and
empty maps. -/
def initHandlerState : HandlerState :=
  { table := fun _ => 0, count := 0, hcache := [], mapping := [] }

/-- Insert-or-update into an association list, keeping iteration order
for existing keys and appending new keys (the behavior of
`unordered_map::operator[]` on one fixed iteration order). -/
def mapStore (m : List (Nat × Nat)) (k v : Nat) : List (Nat × Nat) :=
  if m.any (fun kv => kv.1 = k) then
    m.map (fun kv => if kv.1 = k then (k, v) else kv)
  else
    m ++ [(k, v)]

/-- Modelled from the spec: `DecoderData::handler_index_for` is declared in
`decoder_cache.hpp` but its definition is not among these sources.  Spec
§4.3: look the handler up in the deduplication map and reuse its index if
present; otherwise assign the next free index in `instr_handlers`
(starting at 1) and record it. -/
def handler_index_for (s : HandlerState) (h : Nat) : Nat × HandlerState :=
  match s.hcache.find? (fun kv => kv.1 = h) with
  | some kv => (kv.2, s)
  | none =>
      let idx := s.count + 1
      (idx,
        { table := fun j => if j = idx then h else s.table j
          count := idx
          hcache := s.hcache ++ [(h, idx)]
          mapping := s.mapping })

/-- The method `DecoderData::set_handler(insn)`: assign `m_handler` through
`handler_index_for(insn.handler)` and record the representative encoding
`inst_handler_mapping[m_handler] = instr`.  `h` is the handler of the
decoded instruction passed by the caller. -/
def set_handler (s : HandlerState) (d : DecoderData) (h : Nat) :
    DecoderData × HandlerState :=
  let p := handler_index_for s h
  ({ d with m_handler := p.1 },
   { p.2 with mapping := mapStore p.2.mapping p.1 d.instr })

/-- The method `DecoderData::_assign_handler(idx, h)`: a raw store into
`instr_handlers`. -/
def assign_handler (t : Nat → Nat) (idx h : Nat) : Nat → Nat :=
  fun j => if j = idx then h else t j

/-! Section: raw serialization (`decoder_cache_serialize.hpp`) -/

/-- A 32-bit little-endian encoding (also the truncation applied when the
`size_t` key is stored into the `uint32_t` field of `_handler_item`). -/
def u32le (x : Nat) : List Nat :=
  [x % 256, x / 2 ^ 8 % 256, x / 2 ^ 16 % 256, x / 2 ^ 24 % 256]

/-- The packed `_handler_item {uint32_t idx; uint32_t instr;}`. -/
def handlerItemBytes (kv : Nat × Nat) : List Nat :=
  u32le kv.1 ++ u32le kv.2

/-- The raw image of one `DecoderCache`: the concatenated 8-byte
descriptor images. -/
def pageBytes (p : List DecoderData) : List Nat :=
  (p.map DecoderData.toBytes).flatten

/-- The raw image of `n` consecutive `DecoderCache`s (the source of the
big `memcpy` in `serialize_whole_decoder_cache`). -/
def rawImage (caches : List (List DecoderData)) : List Nat :=
  (caches.map pageBytes).flatten

/-- The handler-binding pairs emitted by `serialize_whole_decoder_cache`:
the loop walks `inst_handler_mapping` in iteration order, skips key 0 and
stores into a heap array of `needed_pairs = m.size() - 1` items; the final
`memcpy` copies exactly `needed_pairs` items into the output.  When key 0
is present in `m` this is every pair with non-zero key; when it is absent
the last non-zero pair overflows the array (undefined behavior in C++)
and only the first `needed_pairs` pairs reach the output, which the
`List.take` reflects. -/
def emittedPairs (m : List (Nat × Nat)) : List (Nat × Nat) :=
  ((m.filter (fun kv => kv.1 ≠ 0)).take (m.length - 1))

/-- The function `serialize_whole_decoder_cache(caches, n)` (raw form, lines 174-222):
empty output for `n = 0`; otherwise the `n * SIZE * 8` raw descriptor
bytes, one count byte `needed_pairs = m.size() - 1` (stored into a
`uint8_t`, hence `% 256`), then the emitted `_handler_item` pairs.
`m` is the iteration-order contents of `inst_handler_mapping`. -/
def serialize_whole_decoder_cache (caches : List (List DecoderData))
    (m : List (Nat × Nat)) : List Nat :=
  if caches = [] then []
  else
    rawImage caches ++ [(m.length - 1) % 256] ++
      ((emittedPairs m).map handlerItemBytes).flatten

/-- Read a little-endian `uint32_t` out of a byte buffer. -/
def readU32 (data : List Nat) (off : Nat) : Nat :=
  data.getD off 0 + 2 ^ 8 * data.getD (off + 1) 0 +
    2 ^ 16 * data.getD (off + 2) 0 + 2 ^ 24 * data.getD (off + 3) 0

/-- Result of `deserialize_decoder_cache`: the overlaid caches and the
updated `instr_handlers` table. -/
structure DeserResult where
  caches : List (List DecoderData)
  table : Nat → Nat

/-- The function `deserialize_decoder_cache(data, n, L)` (raw `LOAD_EXP` form, lines
135-171): require `L ≥ n * SIZE * 8 + 1`, overlay the first
`n * SIZE * 8` bytes as the descriptor array, read the count byte at
index `n * SIZE * 8`, then for each of the `handler_c` packed
`_handler_item`s assign `instr_handlers[idx] = decode(instr).handler`.
`decode e` is the handler of `CPU::decode({e})` and `table0` the
`instr_handlers` table before the call; `L = data.length`. -/
def deserialize_decoder_cache (decode : Nat → Nat) (table0 : Nat → Nat)
    (data : List Nat) (n : Nat) : Except String DeserResult :=
  let required := n * SIZE * 8 + 1
  if data.length < required then
    .error "deserialize_decoder_cache: invalid input size"
  else
    let caches := (List.range n).map (fun p =>
      (List.range SIZE).map (fun i =>
        DecoderData.ofBytes ((data.drop ((p * SIZE + i) * 8)).take 8)))
    let handler_c := data.getD (required - 1) 0
    let table := (List.range handler_c).foldl (fun t i =>
      assign_handler t (readU32 data (required + 8 * i))
        (decode (readU32 data (required + 8 * i + 4)))) table0
    .ok { caches := caches, table := table }

/-! Section: guest pages and Memory (`Memory<W>::allocate_page`,
`Memory<W>::default_page_fault`) -/

/-- Page attribute flags (spec §3). -/
structure PageAttributes where
  read : Bool
  write : Bool
  exec : Bool
  shared : Bool
  is_cow : Bool
deriving DecidableEq, Repr

/-- A guest page: a 4096-byte buffer plus attributes. -/
structure PageM where
  attr : PageAttributes
  data : Nat → Nat

/-- Modelled from the spec: the `Page` class lives in `memory.hpp`, which
is not among these sources.  Per spec §3 and §4.2 a page allocated by
`new Page` is a freshly zeroed owned (non-shared) page; the default
attributes are readable and writable. -/
def freshPage : PageM :=
  { attr := { read := true, write := true, exec := false,
              shared := false, is_cow := false }
    data := fun _ => 0 }

/-- The state of `Memory<W>` needed by the paging and brk syscall claims.
`pages` is the page-number → page map of `m_pages` as an association list
in key order; `cached_read` / `cached_write` are the page numbers held by
the per-direction page caches (`none` when invalid). -/
structure MemoryM where
  pages : List (Nat × PageM)
  pages_total : Nat
  pages_highest : Nat
  cached_read : Option Nat
  cached_write : Option Nat
  heap_address : Nat
  brk_max : Nat

/-- The query `Memory::pages_active()`: the number of pages in the map. -/
def pages_active (m : MemoryM) : Nat :=
  m.pages.length

/-- The operation `std::map::insert`: inserts only when the key is absent, otherwise
leaves the map unchanged (and returns the existing element). -/
def mapInsertPage (ps : List (Nat × PageM)) (k : Nat) (p : PageM) :
    List (Nat × PageM) :=
  if ps.any (fun kp => kp.1 = k) then ps else ps ++ [(k, p)]

/-- Modelled from the spec: `invalidate_page` is declared in `memory.hpp`
outside these sources.  Spec §4.1: any `allocate_page` or
`invalidate_page` with a matching page number must clear the
per-direction cached page. -/
def invalidate_page (m : MemoryM) (page : Nat) : MemoryM :=
  { m with
    cached_read := if m.cached_read = some page then none else m.cached_read
    cached_write := if m.cached_write = some page then none else m.cached_write }

/-- The method `Memory<W>::allocate_page(page)`: insert a fresh page (no overwrite if
present), raise `m_pages_highest` to the new map size if larger, then
invalidate the caches for this page number.  The function has no failure
path. -/
def allocate_page (m : MemoryM) (page : Nat) : MemoryM :=
  let m1 := { m with pages := mapInsertPage m.pages page freshPage }
  let m2 := { m1 with pages_highest := max m1.pages_highest m1.pages.length }
  invalidate_page m2 page

/-- The method `Memory<W>::default_page_fault(mem, page)`: allocate on demand while
under quota, otherwise throw `OutOfMemory`. -/
def default_page_fault (m : MemoryM) (page : Nat) : Except String MemoryM :=
  if pages_active m < m.pages_total then .ok (allocate_page m page)
  else .error "Out of memory"

/-! Section: machine state for the syscall layer.

Registers are modelled as a total map over register indices with the
RISC-V convention of the sources: `a0 = reg 10` holds argument 0 and the
result, `a1 = reg 11`, `a2 = reg 12`.  Register values are the
`address_type<8>` (RV64) ones, so results set from signed C++ expressions
are stored through `toReg`. -/

/-- Store into a register file. -/
def setReg (r : Nat → Nat) (i v : Nat) : Nat → Nat :=
  fun j => if j = i then v else r j

/-- The 64-bit register image of a signed value (two's complement). -/
def toReg (z : Int) : Nat :=
  (z % (2 ^ 64 : Int)).toNat

/-- The accessor `sysarg<int>`: the low 32 bits of a register read as a signed
`int`. -/
def asInt32 (x : Nat) : Int :=
  (x % 2 ^ 32 : Nat) - (if x % 2 ^ 32 < 2 ^ 31 then 0 else (2 ^ 32 : Int))

/-! Section: syscall_brk (syscall 214). -/

/-- The machine state seen by `syscall_brk`: the register file and the
memory subsystem. -/
structure MachineBrk where
  regs : Nat → Nat
  memory : MemoryM

/-- The clamped program break: `sysarg(0)` is clamped into
`[heap_address, heap_address + BRK_MAX]`.  `Memory<W>::BRK_MAX` is
declared in `memory.hpp` outside these sources; the spec lists it as a
configuration knob, modelled by the `brk_max` field.  The sum is
`address_type<8>` arithmetic, hence the `% 2^64`. -/
def brkNewEnd (mem : MemoryM) (x : Nat) : Nat :=
  let hi := (mem.heap_address + mem.brk_max) % 2 ^ 64
  if x > hi then hi
  else if x < mem.heap_address then mem.heap_address
  else x

/-- The handler `syscall_brk`: read `sysarg(0)`, clamp, and write the result into
`a0`.  Nothing else is touched. -/
def syscall_brk (m : MachineBrk) : MachineBrk :=
  { m with regs := setReg m.regs 10 (brkNewEnd m.memory (m.regs 10)) }

/-! Section: syscall_sigaction (syscall 134). -/

/-- The flag `SA_ONSTACK` as defined at the top of the syscall source file. -/
def SA_ONSTACK : Nat := 0x08000000

/-- The per-signal action record of the signal table. -/
structure SignalAction where
  handler : Nat
  altstack : Bool
  mask : Nat
deriving DecidableEq, Repr

/-- The guest-facing `kernel_sigaction {sa_handler, sa_flags, sa_mask}`
struct (three `address_type<W>` fields). -/
structure KernelSigaction where
  sa_handler : Nat
  sa_flags : Nat
  sa_mask : Nat
deriving DecidableEq, Repr

/-- The machine state seen by `syscall_sigaction`: the per-signal action
table, guest memory at `kernel_sigaction` granularity (the only accesses
the syscall makes), and the result register. -/
structure MachineSig where
  sigactions : Nat → SignalAction
  sigMem : Nat → Option KernelSigaction
  a0 : Nat

/-- The expression `handler & ~address_type<W>(0xF)`: clear the low four bits. -/
def clearLow4 (x : Nat) : Nat :=
  16 * (x / 16)

/-- The handler `syscall_sigaction(machine)` with `sig = sysarg(0)`,
`action = sysarg(1)`, `old_action = sysarg(2)`.  Signal 0 returns without
touching `a0`.  A non-null `old_action` receives the current action with
the handler's low 4 bits cleared and only the `SA_ONSTACK` flag; a
non-null `action` is read from guest memory (`none` models the page fault
when the struct is unmapped) and stored into the signal table.  On every
path past the signal-0 check the result is 0. -/
def syscall_sigaction (m : MachineSig) (sig action old_action : Nat) :
    Option MachineSig :=
  if sig = 0 then some m
  else
    let sigact := m.sigactions sig
    let m1 :=
      if old_action ≠ 0 then
        { m with sigMem := fun a =>
            if a = old_action then
              some { sa_handler := clearLow4 sigact.handler
                     sa_flags := if sigact.altstack then SA_ONSTACK else 0
                     sa_mask := sigact.mask }
            else m.sigMem a }
      else m
    if action ≠ 0 then
      match m1.sigMem action with
      | none => none
      | some sa =>
          some { m1 with
            sigactions := fun s =>
              if s = sig then
                { handler := sa.sa_handler
                  altstack := decide (sa.sa_flags &&& SA_ONSTACK ≠ 0)
                  mask := sa.sa_mask }
              else m1.sigactions s
            a0 := 0 }
    else some { m1 with a0 := 0 }

/-! Section: syscall_getrandom (syscall 278). -/

/-- The machine state seen by the I/O syscalls: registers, byte-granular
guest memory, and the host output stream written by `machine.print`. -/
structure MachineHost where
  regs : Nat → Nat
  mem : Nat → Nat
  output : List Nat

/-- Writing a byte buffer into guest memory (`copy_to_guest`). -/
def writeBytes (mem : Nat → Nat) (addr : Nat) (bs : List Nat) :
    Nat → Nat :=
  fun a => if addr ≤ a ∧ a < addr + bs.length then bs.getD (a - addr) 0
    else mem a

/-- The bytes of a guest range. -/
def readBytes (mem : Nat → Nat) (addr len : Nat) : List Nat :=
  (List.range len).map (fun i => mem (addr + i))

/-- The handler `syscall_getrandom`: `g_addr = sysarg(0)`, `g_len = sysarg(1)`.
Lengths above the 256-byte stack buffer yield `-1` before the host is
consulted.  Otherwise the host `getrandom` is modelled by `host`: `none`
is a failing host call (result `-1`), `some bs` a successful one whose
result is the byte count `bs.length`; the bytes are copied to the guest
only when the result is positive, and the result lands in `a0`. -/
def syscall_getrandom (host : Nat → Option (List Nat)) (m : MachineHost) :
    MachineHost :=
  let g_addr := m.regs 10
  let g_len := m.regs 11
  if g_len > 256 then
    { m with regs := setReg m.regs 10 (toReg (-1)) }
  else
    let need := min g_len 256
    match host need with
    | none => { m with regs := setReg m.regs 10 (toReg (-1)) }
    | some bs =>
        if 0 < bs.length then
          { m with regs := setReg m.regs 10 bs.length
                   mem := writeBytes m.mem g_addr bs }
        else
          { m with regs := setReg m.regs 10 bs.length }

/-! Section: syscall_readv (syscall 65) and the stdout path of
syscall_write (syscall 64). -/

/-- The handler `syscall_readv`: `vfd = sysarg<int>(0)`, `count = sysarg<int>(2)`.
Counts outside `1..128` yield `-EINVAL`.  `real_fd` stays `-1` for vfd 1
and 2 and when file descriptors are absent; a negative `real_fd` yields
`-EBADF` with no memory access.  The remaining path (guest iovec copy,
gather, host `readv`) is taken only for a translated `real_fd ≥ 0` and is
abstracted by `hostPath`; `translate` abstracts `fds().translate`. -/
def syscall_readv (has_fds : Bool) (translate : Int → Int)
    (hostPath : MachineHost → MachineHost) (m : MachineHost) : MachineHost :=
  let vfd := asInt32 (m.regs 10)
  let count := asInt32 (m.regs 12)
  if count < 1 ∨ count > 128 then
    { m with regs := setReg m.regs 10 (toReg (-22)) }
  else
    let real_fd : Int :=
      if vfd = 1 ∨ vfd = 2 then -1
      else if has_fds then translate vfd else -1
    if real_fd < 0 then
      { m with regs := setReg m.regs 10 (toReg (-9)) }
    else hostPath m

/-- The handler `syscall_write` for vfd 1 and 2: gather the guest range and print
every span, then return `len`.  Modelled from the spec:
`gather_buffers_from_range` is defined outside these sources, and per
spec §4.1 the concatenation of the gathered spans is exactly the `len`
bytes of the guest range, so printing all spans appends those bytes to
the host output.  The non-stdout branches are abstracted by
`hostTail`. -/
def syscall_write (hostTail : MachineHost → MachineHost) (m : MachineHost) :
    MachineHost :=
  let vfd := asInt32 (m.regs 10)
  let address := m.regs 11
  let len := m.regs 12
  if vfd = 1 ∨ vfd = 2 then
    { m with output := m.output ++ readBytes m.mem address len
             regs := setReg m.regs 10 len }
  else hostTail m

/-! Section: concrete instances used by counterexamples and witnesses. -/

/-- An all-zero descriptor: an invalid slot (`m_handler = 0`). -/
def zeroSlot : DecoderData := ⟨0, 0, 0, 0, 0⟩

/-- A concrete decode map for the serialization counterexamples: the
encoding 7 decodes to the handler numbered 5, everything else to the
invalid handler. -/
def cexDecode : Nat → Nat := fun e => if e = 7 then 5 else 0

/-- A fresh build of one decoded slot: starting from the pristine static
state, `set_handler` is applied to the slot with bytecode 1 and raw
encoding 7, assigning it the handler `cexDecode 7`. -/
def cexBuild : DecoderData × HandlerState :=
  set_handler initHandlerState ⟨1, 0, 0, 0, 7⟩ (cexDecode 7)

/-- The executable page of the fresh build: the decoded slot followed by
invalid slots. -/
def cexPage : List DecoderData :=
  cexBuild.1 :: List.replicate (SIZE - 1) zeroSlot

/-- The serialized image of the one-page fresh build. -/
def cexOut : List Nat :=
  serialize_whole_decoder_cache [cexPage] cexBuild.2.mapping

/-- The byte layout actually emitted by `serialize_whole_decoder_cache`
for a non-empty cache array: `n * SIZE * 8` raw descriptor bytes
(slot `(i, j)` at offset `(i * SIZE + j) * 8`), one count byte equal to
`inst_handler_mapping.size() - 1`, then the emitted handler pairs as
packed little-endian `{u32 idx, u32 instr}` records. -/
def SerializedLayout (caches : List (List DecoderData))
    (m : List (Nat × Nat)) : Prop :=
  (serialize_whole_decoder_cache caches m).length =
    caches.length * SIZE * 8 + 1 + 8 * (emittedPairs m).length ∧
  (∀ i j, i < caches.length → j < SIZE →
    ((serialize_whole_decoder_cache caches m).drop ((i * SIZE + j) * 8)).take 8 =
      ((caches.getD i []).getD j zeroSlot).toBytes) ∧
  (serialize_whole_decoder_cache caches m).getD (caches.length * SIZE * 8) 0 =
    m.length - 1 ∧
  (∀ q, q < (emittedPairs m).length →
    ((serialize_whole_decoder_cache caches m).drop
        (caches.length * SIZE * 8 + 1 + q * 8)).take 8 =
      u32le ((emittedPairs m).getD q (0, 0)).1 ++
        u32le ((emittedPairs m).getD q (0, 0)).2)

/-- A one-page cache of invalid slots, for the layout witness. -/
def witCaches : List (List DecoderData) :=
  [List.replicate SIZE zeroSlot]

/-- A handler mapping that does record index 0, for the layout witness. -/
def witMap : List (Nat × Nat) :=
  [(0, 11), (1, 7)]

/-- A full-quota memory: one page resident, `pages_total = 1`. -/
def memFull : MemoryM :=
  { pages := [(0, freshPage)], pages_total := 1, pages_highest := 1,
    cached_read := none, cached_write := none,
    heap_address := 0x80000000, brk_max := 0x1000000 }

/-- An under-quota memory whose read cache refers to page 3. -/
def memRoom : MemoryM :=
  { pages := [], pages_total := 4, pages_highest := 0,
    cached_read := some 3, cached_write := none,
    heap_address := 0x80000000, brk_max := 0x1000000 }

/-- A machine about to issue `brk(0x90000000)` with the spec's example
heap configuration. -/
def brkMachHigh : MachineBrk :=
  { regs := fun i => if i = 10 then 0x90000000 else 0
    memory := memFull }

/-- A machine about to issue `brk(0)` with the spec's example heap
configuration. -/
def brkMachLow : MachineBrk :=
  { regs := fun _ => 0
    memory := memFull }

/-- A signal-syscall machine with a guest `kernel_sigaction` struct
`{handler = 0x1234, flags = SA_ONSTACK, mask = 0xF}` stored at guest
address 100. -/
def sigMach : MachineSig :=
  { sigactions := fun _ => { handler := 0, altstack := false, mask := 0 }
    sigMem := fun a =>
      if a = 100 then
        some { sa_handler := 0x1234, sa_flags := SA_ONSTACK, sa_mask := 0xF }
      else none
    a0 := 7 }

/-- A second signal-syscall machine, with the struct at guest address
300, for the sigaction witness. -/
def sigMach2 : MachineSig :=
  { sigactions := fun s => { handler := 64 * s, altstack := true, mask := s }
    sigMem := fun a =>
      if a = 300 then
        some { sa_handler := 0x1234, sa_flags := SA_ONSTACK, sa_mask := 0xF }
      else none
    a0 := 3 }

/-- A host machine about to issue `getrandom(buf = 1000, len = 512)`. -/
def randMachBig : MachineHost :=
  { regs := fun i => if i = 10 then 1000 else if i = 11 then 512 else 0
    mem := fun _ => 0
    output := [] }

/-- A host machine about to issue `getrandom(buf = 1000, len = 128)`. -/
def randMachSmall : MachineHost :=
  { regs := fun i => if i = 10 then 1000 else if i = 11 then 128 else 0
    mem := fun _ => 0
    output := [] }

/-- A deterministic host `getrandom` that fills the buffer with the byte
3 and reports full success. -/
def hostRand : Nat → Option (List Nat) :=
  fun n => some (List.replicate n 3)

/-- A machine issuing `readv(vfd = 1, iov = 0, count = 0)`: stdout with
an out-of-range iovec count. -/
def readvMachZero : MachineHost :=
  { regs := fun i => if i = 10 then 1 else 0
    mem := fun _ => 0
    output := [] }

/-- A machine issuing `readv(vfd = 2, iov = 500, count = 3)` (and, for
the write contrast, `write(2, 500, 3)`). -/
def readvMachStd : MachineHost :=
  { regs := fun i => if i = 10 then 2 else if i = 11 then 500 else
      if i = 12 then 3 else 0
    mem := fun a => a % 251
    output := [] }

/-- A machine for the brk frame witness: distinctive values in the
argument register and a neighbour register. -/
def brkMachFrame : MachineBrk :=
  { regs := fun i => if i = 10 then 0x90000000 else if i = 17 then 214 else 0
    memory := memFull }

/-! Section: general lemmas about flattened lists of uniform length. -/

theorem toBytes_length (d : DecoderData) : d.toBytes.length = 8 := rfl

theorem handlerItemBytes_length (kv : Nat × Nat) :
    (handlerItemBytes kv).length = 8 := rfl

theorem flatten_length_uniform {α : Type} (k : Nat) :
    ∀ ll : List (List α), (∀ l ∈ ll, l.length = k) →
      ll.flatten.length = ll.length * k := by
  intro ll
  induction ll with
  | nil => intro _; simp
  | cons a tl ih =>
    intro h
    have ha : a.length = k := h a (List.mem_cons_self a tl)
    rw [List.flatten_cons, List.length_append, ha,
      ih (fun l hl => h l (List.mem_cons_of_mem a hl)), List.length_cons]
    ring

theorem append_extract {α : Type} (l1 l2 : List α) (x mlen : Nat)
    (h : x + mlen ≤ l1.length) :
    ((l1 ++ l2).drop x).take mlen = (l1.drop x).take mlen := by
  rw [List.drop_append_of_le_length (by omega),
    List.take_append_of_le_length (by rw [List.length_drop]; omega)]

theorem flatten_extract {α : Type} (k : Nat) :
    ∀ (ll : List (List α)) (i x mlen : Nat),
      (∀ l ∈ ll, l.length = k) → x + mlen ≤ k → i < ll.length →
      (ll.flatten.drop (i * k + x)).take mlen =
        ((ll.getD i []).drop x).take mlen := by
  intro ll
  induction ll with
  | nil => intro i x mlen _ _ hi; simp at hi
  | cons a tl ih =>
    intro i x mlen h hx hi
    have ha : a.length = k := h a (List.mem_cons_self a tl)
    cases i with
    | zero =>
      rw [List.flatten_cons, Nat.zero_mul, Nat.zero_add, List.getD_cons_zero]
      exact append_extract a tl.flatten x mlen (by omega)
    | succ n =>
      rw [List.flatten_cons,
        show (n + 1) * k + x = a.length + (n * k + x) by rw [ha]; ring,
        List.drop_append, List.getD_cons_succ]
      exact ih n x mlen (fun l hl => h l (List.mem_cons_of_mem a hl)) hx
        (by simpa using hi)

theorem flatten_getD {α : Type} (k : Nat) :
    ∀ (ll : List (List α)) (i t : Nat) (d : α),
      (∀ l ∈ ll, l.length = k) → t < k → i < ll.length →
      ll.flatten.getD (i * k + t) d = (ll.getD i []).getD t d := by
  intro ll
  induction ll with
  | nil => intro i t d _ _ hi; simp at hi
  | cons a tl ih =>
    intro i t d h ht hi
    have ha : a.length = k := h a (List.mem_cons_self a tl)
    cases i with
    | zero =>
      rw [List.flatten_cons, Nat.zero_mul, Nat.zero_add, List.getD_cons_zero]
      exact List.getD_append a tl.flatten d t (by omega)
    | succ n =>
      rw [List.flatten_cons, List.getD_cons_succ,
        List.getD_append_right a tl.flatten d ((n + 1) * k + t)
          (by rw [ha]; nlinarith),
        show (n + 1) * k + t - a.length = n * k + t by rw [ha]; ring_nf; omega]
      exact ih n t d (fun l hl => h l (List.mem_cons_of_mem a hl)) ht
        (by simpa using hi)

/-! Section: layout lemmas for the raw serialized image. -/

theorem pageBytes_length (p : List DecoderData) (h : p.length = SIZE) :
    (pageBytes p).length = SIZE * 8 := by
  unfold pageBytes
  rw [flatten_length_uniform 8 _
    (by intro l hl; obtain ⟨d, _, rfl⟩ := List.mem_map.mp hl; rfl),
    List.length_map, h]

theorem rawImage_length (caches : List (List DecoderData))
    (h : ∀ p ∈ caches, p.length = SIZE) :
    (rawImage caches).length = caches.length * (SIZE * 8) := by
  unfold rawImage
  rw [flatten_length_uniform (SIZE * 8) _
    (by intro l hl; obtain ⟨p, hp, rfl⟩ := List.mem_map.mp hl
        exact pageBytes_length p (h p hp)),
    List.length_map]

theorem rawImage_extract (caches : List (List DecoderData))
    (h : ∀ p ∈ caches, p.length = SIZE) (i j : Nat)
    (hi : i < caches.length) (hj : j < SIZE) :
    ((rawImage caches).drop ((i * SIZE + j) * 8)).take 8 =
      ((caches.getD i []).getD j zeroSlot).toBytes := by
  unfold rawImage
  rw [show (i * SIZE + j) * 8 = i * (SIZE * 8) + j * 8 by ring,
    flatten_extract (SIZE * 8) (caches.map pageBytes) i (j * 8) 8
      (by intro l hl; obtain ⟨p, hp, rfl⟩ := List.mem_map.mp hl
          exact pageBytes_length p (h p hp))
      (by omega)
      (by rw [List.length_map]; exact hi)]
  have hmap : (caches.map pageBytes).getD i [] =
      pageBytes (caches.getD i []) := by
    have : pageBytes ([] : List DecoderData) = [] := rfl
    rw [← this, List.getD_map]
  rw [hmap]
  have hlen : (caches.getD i []).length = SIZE := by
    rw [List.getD_eq_getElem _ _ hi]
    exact h _ (List.getElem_mem hi)
  unfold pageBytes
  rw [show j * 8 = j * 8 + 0 by ring,
    flatten_extract 8 ((caches.getD i []).map DecoderData.toBytes) j 0 8
      (by intro l hl; obtain ⟨d, _, rfl⟩ := List.mem_map.mp hl; rfl)
      (by omega)
      (by rw [List.length_map, hlen]; exact hj)]
  have hmap2 : ((caches.getD i []).map DecoderData.toBytes).getD j [] =
      ((caches.getD i []).getD j zeroSlot).toBytes := by
    rw [List.getD_eq_getElem _ _ (by rw [List.length_map, hlen]; exact hj),
      List.getElem_map]
    exact congrArg DecoderData.toBytes
      (List.getD_eq_getElem _ _ (by rw [hlen]; exact hj)).symm
  rw [hmap2, List.drop_zero, List.take_of_length_le (by rw [toBytes_length])]

/-! Section: layout lemmas for the full serialized output. -/

theorem serialize_eq (caches : List (List DecoderData)) (m : List (Nat × Nat))
    (h : caches ≠ []) :
    serialize_whole_decoder_cache caches m =
      rawImage caches ++ (m.length - 1) % 256 ::
        ((emittedPairs m).map handlerItemBytes).flatten := by
  unfold serialize_whole_decoder_cache
  rw [if_neg h, List.append_assoc, List.singleton_append]

theorem serialize_length (caches : List (List DecoderData))
    (m : List (Nat × Nat)) (hne : caches ≠ [])
    (h : ∀ p ∈ caches, p.length = SIZE) :
    (serialize_whole_decoder_cache caches m).length =
      caches.length * SIZE * 8 + 1 + 8 * (emittedPairs m).length := by
  rw [serialize_eq _ _ hne, List.length_append, rawImage_length _ h,
    List.length_cons,
    flatten_length_uniform 8 _
      (by intro l hl; obtain ⟨kv, _, rfl⟩ := List.mem_map.mp hl; rfl),
    List.length_map]
  ring

theorem serialize_count_byte (caches : List (List DecoderData))
    (m : List (Nat × Nat)) (hne : caches ≠ [])
    (h : ∀ p ∈ caches, p.length = SIZE) :
    (serialize_whole_decoder_cache caches m).getD
        (caches.length * SIZE * 8) 0 = (m.length - 1) % 256 := by
  rw [serialize_eq _ _ hne,
    List.getD_append_right _ _ _ _
      (by rw [rawImage_length _ h, Nat.mul_assoc]),
    show caches.length * SIZE * 8 - (rawImage caches).length = 0 by
      rw [rawImage_length _ h, Nat.mul_assoc]; omega,
    List.getD_cons_zero]

theorem serialize_slot_extract (caches : List (List DecoderData))
    (m : List (Nat × Nat)) (h : ∀ p ∈ caches, p.length = SIZE)
    (i j : Nat) (hi : i < caches.length) (hj : j < SIZE) :
    ((serialize_whole_decoder_cache caches m).drop ((i * SIZE + j) * 8)).take 8 =
      ((caches.getD i []).getD j zeroSlot).toBytes := by
  have hne : caches ≠ [] := by
    intro hcontra; rw [hcontra] at hi; simp at hi
  rw [serialize_eq _ _ hne,
    append_extract _ _ _ _
      (by rw [rawImage_length _ h]
          have h8 : (i * SIZE + j) * 8 + 8 = (i * SIZE + j + 1) * 8 := by ring
          have hle : i * SIZE + j + 1 ≤ caches.length * SIZE := by nlinarith
          calc (i * SIZE + j) * 8 + 8 = (i * SIZE + j + 1) * 8 := h8
            _ ≤ caches.length * SIZE * 8 := by omega
            _ = caches.length * (SIZE * 8) := by ring),
    rawImage_extract caches h i j hi hj]

theorem serialize_pairs_extract (caches : List (List DecoderData))
    (m : List (Nat × Nat)) (hne : caches ≠ [])
    (h : ∀ p ∈ caches, p.length = SIZE) (q : Nat)
    (hq : q < (emittedPairs m).length) :
    ((serialize_whole_decoder_cache caches m).drop
        (caches.length * SIZE * 8 + 1 + q * 8)).take 8 =
      u32le ((emittedPairs m).getD q (0, 0)).1 ++
        u32le ((emittedPairs m).getD q (0, 0)).2 := by
  rw [serialize_eq _ _ hne,
    show caches.length * SIZE * 8 + 1 + q * 8 =
        (rawImage caches).length + (q * 8 + 1) by
      rw [rawImage_length _ h]; ring,
    List.drop_append, List.drop_succ_cons,
    show q * 8 = q * 8 + 0 by ring,
    flatten_extract 8 _ q 0 8
      (by intro l hl; obtain ⟨kv, _, rfl⟩ := List.mem_map.mp hl; rfl)
      (by omega)
      (by rw [List.length_map]; exact hq),
    List.drop_zero]
  have hmap : ((emittedPairs m).map handlerItemBytes).getD q [] =
      handlerItemBytes ((emittedPairs m).getD q (0, 0)) := by
    rw [List.getD_eq_getElem _ _ (by rw [List.length_map]; exact hq),
      List.getElem_map]
    exact congrArg handlerItemBytes (List.getD_eq_getElem _ _ hq).symm
  rw [hmap, List.take_of_length_le (by rw [handlerItemBytes_length])]
  rfl

/-! Section: facts about the concrete one-slot fresh build. -/

theorem cexMapping_eq : cexBuild.2.mapping = [(1, 7)] := by decide

theorem cexPairs_eq : emittedPairs cexBuild.2.mapping = [] := by
  rw [cexMapping_eq]; rfl

theorem cexPage_wf : ∀ p ∈ [cexPage], p.length = SIZE := by
  intro p hp
  rw [List.mem_singleton] at hp
  subst hp
  rw [cexPage, List.length_cons, List.length_replicate]
  decide

theorem cexOut_length : cexOut.length = SIZE * 8 + 1 := by
  rw [cexOut, serialize_length _ _ (by simp) cexPage_wf, cexPairs_eq]
  simp

theorem cexOut_count : cexOut.getD (SIZE * 8) 0 = 0 := by
  have h := serialize_count_byte [cexPage] cexBuild.2.mapping (by simp)
    cexPage_wf
  rw [cexMapping_eq] at h
  simpa using h

theorem cexOut_table :
    (deserialize_decoder_cache cexDecode (fun _ => 0) cexOut 1).map
      (fun r => r.table 1) = .ok 0 := by
  unfold deserialize_decoder_cache
  rw [if_neg (by rw [cexOut_length]; omega)]
  have hidx : 1 * SIZE * 8 + 1 - 1 = SIZE * 8 := by omega
  simp only [hidx, cexOut_count, Except.map, List.range_zero, List.foldl_nil]

/-! Section: claims about the decoder-cache serialization. -/

/-- C1.  The serialize/deserialize round trip does not restore the
handlers: in a fresh one-page build whose only decoded slot was assigned
via `set_handler` (handler index 1, representative encoding 7, handler
`cexDecode 7 = 5`), `serialize_whole_decoder_cache` emits
`inst_handler_mapping.size() - 1 = 0` handler bindings — it assumes index
0 is recorded in the mapping, but `set_handler` assigns indices starting
at 1 — so `deserialize_decoder_cache` rebinds nothing and
`instr_handlers[1]` keeps its null value 0 instead of the handler 5 a
fresh build assigns for encoding 7. -/
theorem decoder_serialize_drops_handler_binding :
    cexBuild.1.m_handler = 1 ∧
    cexBuild.2.table 1 = cexDecode cexBuild.1.instr ∧
    cexDecode cexBuild.1.instr = 5 ∧
    (deserialize_decoder_cache cexDecode (fun _ => 0) cexOut 1).map
      (fun r => r.table 1) = .ok 0 ∧
    (0 : Nat) ≠ 5 :=
  ⟨by decide, by decide, by decide, cexOut_table, by decide⟩

/-- C2 counterexample.  For the one-page fresh build `cexOut`, the count
byte at offset `n * SIZE * 8` is 0, yet `inst_handler_mapping` records
exactly one pair with non-zero handler index, so the emitted byte is not
the number of handler bindings excluding index 0. -/
theorem serialize_count_byte_cex :
    cexOut.getD (SIZE * 8) 0 = 0 ∧
    (cexBuild.2.mapping.filter (fun kv => kv.1 ≠ 0)).length = 1 ∧
    (0 : Nat) ≠ 1 :=
  ⟨cexOut_count, by rw [cexMapping_eq]; rfl, by decide⟩

/-- C2 (amended).  For every non-empty cache array whose pages hold
`SIZE` descriptors and every non-empty `inst_handler_mapping` of at most
256 entries, the serialized byte vector is `n * SIZE * 8` raw descriptor
bytes (slot `(i, j)` at offset `(i * SIZE + j) * 8`), one byte equal to
`inst_handler_mapping.size() - 1`, and that many little-endian
`{u32 handler_idx, u32 representative_encoding}` entries — the pairs with
non-zero key in iteration order, truncated to `size() - 1` of them. -/
theorem serialize_layout_amended (caches : List (List DecoderData))
    (m : List (Nat × Nat)) (hne : caches ≠ [])
    (h : ∀ p ∈ caches, p.length = SIZE) (hm : m ≠ [])
    (hlen : m.length ≤ 256) :
    SerializedLayout caches m := by
  refine ⟨serialize_length _ _ hne h,
    fun i j hi hj => serialize_slot_extract caches m h i j hi hj, ?_,
    fun q hq => serialize_pairs_extract caches m hne h q hq⟩
  rw [serialize_count_byte _ _ hne h, Nat.mod_eq_of_lt (by omega)]

/-- C2 witness: the layout at a concrete one-page cache and a two-entry
mapping that records index 0. -/
theorem serialize_layout_amended_witness : SerializedLayout witCaches witMap :=
  serialize_layout_amended witCaches witMap (by simp [witCaches])
    (by intro p hp
        rw [witCaches, List.mem_singleton] at hp
        subst hp
        rw [List.length_replicate])
    (by simp [witMap]) (by simp [witMap])

/-- C10.  Called with `n = 0` pages, `serialize_whole_decoder_cache`
returns the empty byte vector: no raw image, no count byte, no handler
entries, so the output does not follow the raw layout, which always
carries at least the count byte. -/
theorem serialize_empty_cache (m : List (Nat × Nat)) :
    serialize_whole_decoder_cache [] m = [] := by
  rw [serialize_whole_decoder_cache, if_pos rfl]

/-! Section: the DecoderData derived-query invariant. -/

/-- C7 counterexample.  The descriptor with `idxend = 0` and `icount = 1`
is representable in the 8-byte layout, yet its `instruction_count()` is
`0 + 1 - 1 = 0 < 1`, so the claimed invariant fails. -/
theorem decoder_invariant_cex :
    DecoderData.WF ⟨0, 0, 0, 1, 0⟩ ∧
    DecoderData.instruction_count ⟨0, 0, 0, 1, 0⟩ = 0 ∧
    ¬(1 ≤ DecoderData.instruction_count ⟨0, 0, 0, 1, 0⟩ ∧
      DecoderData.block_bytes ⟨0, 0, 0, 1, 0⟩ ≤ PageSize) := by
  decide

/-- C7 (amended).  For every representable descriptor,
`block_bytes() = 2 * idxend ≤ 510 ≤ PageSize` always holds, and
`instruction_count() ≥ 1` holds exactly when `icount ≤ idxend` (true for
every descriptor produced by the block-building decoder, but not for
arbitrary field contents). -/
theorem decoder_invariant_amended (d : DecoderData) (h : d.WF) :
    (d.icount ≤ d.idxend → 1 ≤ d.instruction_count) ∧
    d.block_bytes ≤ PageSize := by
  obtain ⟨-, -, h3, -, -⟩ := h
  constructor
  · intro hle
    unfold DecoderData.instruction_count
    omega
  · unfold DecoderData.block_bytes PageSize
    omega

/-- C7 witness: the amended invariant at a concrete descriptor. -/
theorem decoder_invariant_amended_witness :
    1 ≤ DecoderData.instruction_count ⟨1, 1, 3, 2, 7⟩ ∧
    DecoderData.block_bytes ⟨1, 1, 3, 2, 7⟩ ≤ PageSize := by
  have h := decoder_invariant_amended ⟨1, 1, 3, 2, 7⟩ (by decide)
  exact ⟨h.1 (by decide), h.2⟩

/-! Section: page allocation. -/

/-- C4 counterexample.  With the quota exhausted
(`pages_active = pages_total = 1`), `allocate_page` does not fail with
OutOfMemory: it has no failure path and inserts page 5 anyway.  The quota
check that does produce OutOfMemory is in `default_page_fault`. -/
theorem allocate_page_no_oom_cex :
    pages_active memFull ≥ memFull.pages_total ∧
    (allocate_page memFull 5).pages.any (fun kp => kp.1 = 5) = true ∧
    default_page_fault memFull 5 = .error "Out of memory" := by
  refine ⟨by decide, by decide, ?_⟩
  rw [default_page_fault, if_neg (by decide)]

/-- C4 (amended).  The quota check lives in `default_page_fault`: at
`pages_active ≥ pages_total` it fails with OutOfMemory and below quota it
calls `allocate_page`.  `allocate_page` itself never fails: it inserts a
freshly zeroed owned page when the page number is absent, clears each
per-direction cached page that referred to this page number, and raises
`pages_highest` to the new page count when larger. -/
theorem allocate_page_amended (m : MemoryM) (p : Nat) :
    (pages_active m ≥ m.pages_total →
      default_page_fault m p = .error "Out of memory") ∧
    (pages_active m < m.pages_total →
      default_page_fault m p = .ok (allocate_page m p)) ∧
    (m.pages.any (fun kp => kp.1 = p) = false →
      (allocate_page m p).pages = m.pages ++ [(p, freshPage)]) ∧
    ((allocate_page m p).cached_read =
      if m.cached_read = some p then none else m.cached_read) ∧
    ((allocate_page m p).cached_write =
      if m.cached_write = some p then none else m.cached_write) ∧
    ((allocate_page m p).pages_highest =
      max m.pages_highest (allocate_page m p).pages.length) ∧
    (∀ i, freshPage.data i = 0) ∧ freshPage.attr.shared = false := by
  refine ⟨?_, ?_, ?_, rfl, rfl, rfl, fun _ => rfl, rfl⟩
  · intro hge
    rw [default_page_fault, if_neg (by omega)]
  · intro hlt
    rw [default_page_fault, if_pos hlt]
  · intro habs
    simp [allocate_page, invalidate_page, mapInsertPage, habs]

/-- C4 witness: the amended contract at an under-quota memory whose read
cache holds the allocated page number. -/
theorem allocate_page_amended_witness :
    default_page_fault memRoom 3 = .ok (allocate_page memRoom 3) ∧
    (allocate_page memRoom 3).pages = memRoom.pages ++ [(3, freshPage)] ∧
    (allocate_page memRoom 3).cached_read = none := by
  have h := allocate_page_amended memRoom 3
  refine ⟨h.2.1 (by decide), h.2.2.1 (by decide), ?_⟩
  rw [h.2.2.2.1]
  rfl

/-! Section: rt_sigaction. -/

/-- C3 counterexample.  Setting the action `{handler = 0x1234,
flags = SA_ONSTACK, mask = 0xF}` for signal 10 and reading it back writes
`sa_handler = 0x1230` into guest memory — the read-out masks the low four
bits of the stored handler — so the claimed `old.sa_handler = 0x1234`
fails. -/
theorem sigaction_handler_mask_cex :
    ((syscall_sigaction sigMach 10 100 0).bind
        (fun m1 => syscall_sigaction m1 10 0 200)).map
      (fun m2 => m2.sigMem 200) =
      some (some { sa_handler := 0x1230, sa_flags := SA_ONSTACK,
                   sa_mask := 0xF }) ∧
    (0x1230 : Nat) ≠ 0x1234 := by
  exact ⟨rfl, by decide⟩

/-- C3 (amended).  For every non-zero signal and non-null guest
addresses, installing `{handler = 0x1234, flags = SA_ONSTACK,
mask = 0xF}` and then querying the old action writes
`{sa_handler = 0x1230, sa_flags = SA_ONSTACK, sa_mask = 0xF}` into guest
memory: flags and mask round-trip, the handler comes back with its low
four bits cleared. -/
theorem sigaction_roundtrip_amended (mach : MachineSig)
    (sig a_in a_out : Nat) (hsig : sig ≠ 0) (hin : a_in ≠ 0)
    (hout : a_out ≠ 0)
    (hmem : mach.sigMem a_in =
      some { sa_handler := 0x1234, sa_flags := SA_ONSTACK,
             sa_mask := 0xF }) :
    ((syscall_sigaction mach sig a_in 0).bind
        (fun m1 => syscall_sigaction m1 sig 0 a_out)).map
      (fun m2 => m2.sigMem a_out) =
      some (some { sa_handler := 0x1230, sa_flags := SA_ONSTACK,
                   sa_mask := 0xF }) := by
  simp only [syscall_sigaction, if_neg hsig, ne_eq, not_true_eq_false,
    if_neg (show ¬(0 : Nat) ≠ 0 by omega), if_pos hin, if_pos hout]
  simp [hmem, clearLow4, SA_ONSTACK]

/-- C3 witness: the amended round trip at a concrete machine, signal 4
and guest addresses 300 and 400. -/
theorem sigaction_roundtrip_amended_witness :
    ((syscall_sigaction sigMach2 4 300 0).bind
        (fun m1 => syscall_sigaction m1 4 0 400)).map
      (fun m2 => m2.sigMem 400) =
      some (some { sa_handler := 0x1230, sa_flags := SA_ONSTACK,
                   sa_mask := 0xF }) :=
  sigaction_roundtrip_amended sigMach2 4 300 400 (by decide) (by decide)
    (by decide) rfl

/-! Section: brk. -/

/-- C5.  The brk syscall writes into `a0` the requested address clamped
into `[heap_address, heap_address + BRK_MAX]` (witnessed below at the
spec's example values `brk(0x90000000) = 0x81000000` and
`brk(0) = 0x80000000`). -/
theorem brk_clamp (m : MachineBrk)
    (h : m.memory.heap_address + m.memory.brk_max < 2 ^ 64) :
    (syscall_brk m).regs 10 =
      max m.memory.heap_address
        (min (m.regs 10) (m.memory.heap_address + m.memory.brk_max)) := by
  simp only [syscall_brk, brkNewEnd, setReg, if_pos rfl,
    Nat.mod_eq_of_lt h]
  split_ifs <;> omega

/-- C5 witness: the two example requests of the spec, with
`heap_address = 0x80000000` and `BRK_MAX = 0x1000000`. -/
theorem brk_clamp_witness :
    (syscall_brk brkMachHigh).regs 10 = 0x81000000 ∧
    (syscall_brk brkMachLow).regs 10 = 0x80000000 := by
  have h1 := brk_clamp brkMachHigh (by decide)
  have h2 := brk_clamp brkMachLow (by decide)
  rw [h1, h2]
  decide

/-- C9.  The brk syscall never changes memory state: the whole `Memory`
component (pages, caches, heap bookkeeping) is untouched, and the only
register written is `a0`, which receives the clamped break. -/
theorem brk_frame (m : MachineBrk) :
    (syscall_brk m).memory = m.memory ∧
    (syscall_brk m).regs 10 = brkNewEnd m.memory (m.regs 10) ∧
    (∀ i, i ≠ 10 → (syscall_brk m).regs i = m.regs i) := by
  refine ⟨rfl, by simp [syscall_brk, setReg], fun i hi => ?_⟩
  simp [syscall_brk, setReg, hi]

/-- C9 witness: the frame condition at a concrete machine, observed on
the untouched register `a7 = reg 17`. -/
theorem brk_frame_witness :
    (syscall_brk brkMachFrame).memory = brkMachFrame.memory ∧
    (syscall_brk brkMachFrame).regs 17 = brkMachFrame.regs 17 := by
  have h := brk_frame brkMachFrame
  exact ⟨h.1, h.2.2 17 (by decide)⟩

/-! Section: getrandom. -/

/-- C6.  A getrandom request longer than the 256-byte stack buffer
returns `-1` and leaves guest memory untouched; a request of at most 256
bytes that the host serves in full returns the number of bytes obtained
and copies exactly that many bytes to the guest buffer, leaving every
other byte of guest memory unchanged. -/
theorem getrandom_spec (host : Nat → Option (List Nat)) (m : MachineHost)
    (bs : List Nat) :
    (m.regs 11 > 256 →
      (syscall_getrandom host m).regs 10 = toReg (-1) ∧
      (syscall_getrandom host m).mem = m.mem) ∧
    (m.regs 11 ≤ 256 → host (m.regs 11) = some bs →
      bs.length = m.regs 11 → 0 < m.regs 11 →
      (syscall_getrandom host m).regs 10 = m.regs 11 ∧
      (∀ i, i < m.regs 11 →
        (syscall_getrandom host m).mem (m.regs 10 + i) = bs.getD i 0) ∧
      (∀ a, a < m.regs 10 ∨ m.regs 10 + m.regs 11 ≤ a →
        (syscall_getrandom host m).mem a = m.mem a)) := by
  constructor
  · intro hg
    rw [syscall_getrandom, if_pos hg]
    exact ⟨by simp [setReg], rfl⟩
  · intro hle hhost hblen hpos
    have hmin : min (m.regs 11) 256 = m.regs 11 := by omega
    rw [syscall_getrandom, if_neg (by omega)]
    simp only [hmin, hhost]
    rw [if_pos (by omega)]
    refine ⟨by simp [setReg, hblen], fun i hi => ?_, fun a ha => ?_⟩
    · simp only [writeBytes]
      rw [if_pos (by omega)]
      congr 1
      omega
    · simp only [writeBytes]
      rw [if_neg (by omega)]

set_option maxRecDepth 4000 in
/-- C6 witness: with a host that always serves the request in full,
`getrandom(1000, 512)` returns `-1` and `getrandom(1000, 128)` returns
128, fills bytes 1000..1127 with the host bytes and leaves byte 999
alone. -/
theorem getrandom_spec_witness :
    (syscall_getrandom hostRand randMachBig).regs 10 = toReg (-1) ∧
    (syscall_getrandom hostRand randMachSmall).regs 10 = 128 ∧
    (syscall_getrandom hostRand randMachSmall).mem 1005 = 3 ∧
    (syscall_getrandom hostRand randMachSmall).mem 999 =
      randMachSmall.mem 999 := by
  have h1 := (getrandom_spec hostRand randMachBig []).1 (by decide)
  have h2 := (getrandom_spec hostRand randMachSmall
      (List.replicate 128 3)).2 (by decide) rfl
      (by simp [randMachSmall]) (by decide)
  refine ⟨h1.1, ?_, ?_, h2.2.2 999 (Or.inl (by simp [randMachSmall]))⟩
  · rw [h2.1]
    simp [randMachSmall]
  · have h3 := h2.2.1 5 (by simp [randMachSmall])
    simpa [randMachSmall] using h3

/-! Section: readv and the stdout write contrast. -/

/-- C8 counterexample.  readv on stdout with an iovec count of 0 sets
`a0` to `-EINVAL`, not `-EBADF`: the count bound check precedes the vfd
special-casing, so the claimed "always -EBADF" fails. -/
theorem readv_einval_cex :
    (syscall_readv true (fun _ => -1) id readvMachZero).regs 10 =
      toReg (-22) ∧
    toReg (-22) ≠ toReg (-9) := by
  exact ⟨rfl, by decide⟩

/-- C8 (amended).  For an iovec count within `1..128`, readv invoked
with vfd 1 or 2 always sets `a0` to `-EBADF` and transfers no data —
guest memory, host output and all other registers are untouched — even
when file descriptors are enabled; by contrast, `syscall_write` on the
same machine special-cases those vfds by printing the gathered guest
bytes and returning `len`. -/
theorem readv_stdio_ebadf (has_fds : Bool) (translate : Int → Int)
    (hostPath hostTail : MachineHost → MachineHost) (m : MachineHost)
    (hvfd : asInt32 (m.regs 10) = 1 ∨ asInt32 (m.regs 10) = 2)
    (hc1 : 1 ≤ asInt32 (m.regs 12)) (hc2 : asInt32 (m.regs 12) ≤ 128) :
    (syscall_readv has_fds translate hostPath m).regs 10 = toReg (-9) ∧
    (syscall_readv has_fds translate hostPath m).mem = m.mem ∧
    (syscall_readv has_fds translate hostPath m).output = m.output ∧
    (∀ i, i ≠ 10 →
      (syscall_readv has_fds translate hostPath m).regs i = m.regs i) ∧
    (syscall_write hostTail m).regs 10 = m.regs 12 ∧
    (syscall_write hostTail m).output =
      m.output ++ readBytes m.mem (m.regs 11) (m.regs 12) := by
  have hcount : ¬(asInt32 (m.regs 12) < 1 ∨ asInt32 (m.regs 12) > 128) := by
    omega
  refine ⟨?_, ?_, ?_, fun i hi => ?_, ?_, ?_⟩
  · simp [syscall_readv, hcount, if_pos hvfd, setReg]
  · simp [syscall_readv, hcount, if_pos hvfd]
  · simp [syscall_readv, hcount, if_pos hvfd]
  · simp [syscall_readv, hcount, if_pos hvfd, setReg, hi]
  · simp [syscall_write, if_pos hvfd, setReg]
  · simp [syscall_write, if_pos hvfd]

/-- C8 witness: the amended behavior at a concrete machine issuing
`readv(2, 500, 3)` and `write(2, 500, 3)`. -/
theorem readv_stdio_ebadf_witness :
    (syscall_readv true (fun v => v) id readvMachStd).regs 10 =
      toReg (-9) ∧
    (syscall_readv true (fun v => v) id readvMachStd).regs 12 =
      readvMachStd.regs 12 ∧
    (syscall_write id readvMachStd).output =
      readvMachStd.output ++
        readBytes readvMachStd.mem (readvMachStd.regs 11)
          (readvMachStd.regs 12) := by
  have h := readv_stdio_ebadf true (fun v => v) id id readvMachStd
    (Or.inr (by decide)) (by decide) (by decide)
  exact ⟨h.1, h.2.2.2.1 12 (by decide), h.2.2.2.2.2⟩

end LibRiscv
